import Mathlib

/-!
Verification of the urban-mobility batch pipeline
(data_ingest.py, data_clean.py, feature_engineering.py, forecast_model.py).

Conventions of the shallow embedding:
- timestamps are seconds since the epoch, modelled as Nat;
- coordinates and derived quantities are exact rationals;
- a raw table cell that may be null (pandas NaN) is an Option;
- a pandas boolean-mask filter is List.filter with a Bool predicate that
  is false on null cells, matching pandas comparison semantics on NaN.
-/

namespace UrbanMobility

/-! ### Data model: data_clean.py -/

/-- RawTripRecord: one row of the ingested table, eight columns, each
possibly null before the dropna step. -/
structure RawTripRecord where
  pickup_datetime : Option Nat
  dropoff_datetime : Option Nat
  pickup_longitude : Option ℚ
  pickup_latitude : Option ℚ
  dropoff_longitude : Option ℚ
  dropoff_latitude : Option ℚ
  passenger_count : Option ℤ
  trip_duration : Option ℤ
deriving DecidableEq, Repr

/-- Predicate of df.dropna(): every one of the eight fields is non-null. -/
def notnullP (r : RawTripRecord) : Bool :=
  r.pickup_datetime.isSome && r.dropoff_datetime.isSome &&
  r.pickup_longitude.isSome && r.pickup_latitude.isSome &&
  r.dropoff_longitude.isSome && r.dropoff_latitude.isSome &&
  r.passenger_count.isSome && r.trip_duration.isSome

/-- Predicate of df[df[passenger_count] > 0]; false on a null cell,
as a pandas comparison with NaN is false. -/
def passengerP (r : RawTripRecord) : Bool :=
  match r.passenger_count with
  | some c => decide (0 < c)
  | none => false

/-- Series.between with inclusive bounds (the pandas default), false on null. -/
def betweenQ (lo hi : ℚ) (x : Option ℚ) : Bool :=
  match x with
  | some v => decide (lo ≤ v ∧ v ≤ hi)
  | none => false

def NYC_min_lon : ℚ := -74.3
def NYC_max_lon : ℚ := -73.7
def NYC_min_lat : ℚ := 40.5
def NYC_max_lat : ℚ := 41.0

/-- Predicate of the geographic bounding-box mask in clean_data. -/
def geoP (r : RawTripRecord) : Bool :=
  betweenQ NYC_min_lat NYC_max_lat r.pickup_latitude &&
  betweenQ NYC_min_lon NYC_max_lon r.pickup_longitude &&
  betweenQ NYC_min_lat NYC_max_lat r.dropoff_latitude &&
  betweenQ NYC_min_lon NYC_max_lon r.dropoff_longitude

/-- Predicate of df[(df[trip_duration] > 60) & (df[trip_duration] < 5400)]. -/
def durP (r : RawTripRecord) : Bool :=
  match r.trip_duration with
  | some d => decide (60 < d ∧ d < 5400)
  | none => false

/-- The four conjunctive filters of clean_data, in the implemented order. -/
def cleanerPredicates : List (RawTripRecord → Bool) :=
  [notnullP, passengerP, geoP, durP]

/-- Filtering part of clean_data: the four masks applied in source order. -/
def cleanFilter (rows : List RawTripRecord) : List RawTripRecord :=
  (((rows.filter notnullP).filter passengerP).filter geoP).filter durP

/-- Rounding of x to two decimal places, as in round(x, 2) of the source.
Round-to-nearest; the tie case never arises for the durations the
cleaner produces (5 * d / 3 is never a half-integer for integer d). -/
def round2 (x : ℚ) : ℚ := (round (x * 100) : ℚ) / 100

/-- CleanedTripRecord: a surviving row plus the derived
trip_duration_minutes column. -/
structure CleanedTripRecord where
  pickup_datetime : Nat
  dropoff_datetime : Nat
  pickup_longitude : ℚ
  pickup_latitude : ℚ
  dropoff_longitude : ℚ
  dropoff_latitude : ℚ
  passenger_count : ℤ
  trip_duration : ℤ
  trip_duration_minutes : ℚ
deriving DecidableEq, Repr

/-- Derivation of the trip_duration_minutes column on a surviving row
(whose fields are all non-null, hence the getD defaults never fire). -/
def addMinutes (r : RawTripRecord) : CleanedTripRecord :=
  { pickup_datetime := r.pickup_datetime.getD 0
    dropoff_datetime := r.dropoff_datetime.getD 0
    pickup_longitude := r.pickup_longitude.getD 0
    pickup_latitude := r.pickup_latitude.getD 0
    dropoff_longitude := r.dropoff_longitude.getD 0
    dropoff_latitude := r.dropoff_latitude.getD 0
    passenger_count := r.passenger_count.getD 0
    trip_duration := r.trip_duration.getD 0
    trip_duration_minutes := round2 ((r.trip_duration.getD 0 : ℚ) / 60) }

/-- clean_data of data_clean.py: the four filters, then the derived column. -/
def clean_data (rows : List RawTripRecord) : List CleanedTripRecord :=
  (cleanFilter rows).map addMinutes

/-- Application of a list of boolean masks one after the other. -/
def applyFilters (rows : List RawTripRecord)
    (ps : List (RawTripRecord → Bool)) : List RawTripRecord :=
  ps.foldl (fun acc p => acc.filter p) rows

/-- A fully valid concrete record used for boundary tests. -/
def rBase : RawTripRecord :=
  { pickup_datetime := some 0
    dropoff_datetime := some 600
    pickup_longitude := some (-74.0)
    pickup_latitude := some 40.75
    dropoff_longitude := some (-73.98)
    dropoff_latitude := some 40.7
    passenger_count := some 1
    trip_duration := some 600 }

/-- Boundary record: pickup latitude exactly at the lower bound 40.5. -/
def latBoundaryPass : RawTripRecord := { rBase with pickup_latitude := some 40.5 }

/-- Boundary record: pickup latitude just below the lower bound. -/
def latBoundaryFail : RawTripRecord := { rBase with pickup_latitude := some 40.49999 }

/-- Evaluation of every cleaner predicate on the two boundary records. -/
lemma preds_latBoundaryPass :
    notnullP latBoundaryPass = true ∧ passengerP latBoundaryPass = true ∧
    geoP latBoundaryPass = true ∧ durP latBoundaryPass = true := by
  refine ⟨rfl, rfl, ?_, rfl⟩
  simp only [geoP, betweenQ, latBoundaryPass, rBase, NYC_min_lat, NYC_max_lat,
    NYC_min_lon, NYC_max_lon, Bool.and_eq_true, decide_eq_true_eq]
  norm_num

lemma geoP_latBoundaryFail : geoP latBoundaryFail = false := by
  have h : betweenQ NYC_min_lat NYC_max_lat latBoundaryFail.pickup_latitude = false := by
    simp only [latBoundaryFail, rBase, betweenQ, NYC_min_lat, NYC_max_lat,
      decide_eq_false_iff_not, not_and]
    intro h
    norm_num at h
  simp [geoP, h]

/-- The record with latitude exactly 40.5 survives the cleaner filters. -/
lemma latBoundaryPass_mem : latBoundaryPass ∈ cleanFilter [latBoundaryPass] := by
  simp [cleanFilter, List.filter, preds_latBoundaryPass.1, preds_latBoundaryPass.2.1,
    preds_latBoundaryPass.2.2.1, preds_latBoundaryPass.2.2.2]

/-- The record with latitude 40.49999 is removed by the cleaner filters. -/
lemma latBoundaryFail_not_mem : latBoundaryFail ∉ cleanFilter [latBoundaryFail] := by
  have h : cleanFilter [latBoundaryFail] = [] := by
    simp [cleanFilter, List.filter, geoP_latBoundaryFail,
      show notnullP latBoundaryFail = true from rfl,
      show passengerP latBoundaryFail = true from rfl]
  rw [h]
  exact List.not_mem_nil _

/-! ### Aggregator: feature_engineering.py

create_hourly_demand floors every pickup timestamp to its hour
(df.resample applied hourly), counts trips per hour, and materialises one
row for every hour between the minimum and maximum observed hour with the
hours that have no trips carrying count 0 (resample size with hourly
asfreq and fill_value 0). A timestamp is seconds since the epoch; the
first column of a row is the hour-floored timestamp in seconds. -/

/-- Floor of a timestamp (seconds) to its hour index. -/
def floorHour (t : Nat) : Nat := t / 3600

/-- Minimum hour index of a list of pickup timestamps (0 on the empty list,
which the aggregator never consults). -/
def loHour : List Nat → Nat
  | [] => 0
  | t :: ts => (ts.map floorHour).foldl min (floorHour t)

/-- Maximum hour index of a list of pickup timestamps. -/
def hiHour : List Nat → Nat
  | [] => 0
  | t :: ts => (ts.map floorHour).foldl max (floorHour t)

/-- create_hourly_demand of feature_engineering.py: the gap-free hourly
series, one (timestamp, count) row per hour from the minimum to the
maximum observed hour. -/
def create_hourly_demand (pickups : List Nat) : List (Nat × Nat) :=
  match pickups with
  | [] => []
  | t :: ts =>
    (List.range (hiHour (t :: ts) - loHour (t :: ts) + 1)).map fun i =>
      (3600 * (loHour (t :: ts) + i),
       (t :: ts).countP fun u => floorHour u == loHour (t :: ts) + i)

/-! ### Forecaster: forecast_model.py -/

/-- calculate_mape of forecast_model.py: pair the two vectors, keep the
points with nonzero actual, return 0 if none remain, else the mean of the
absolute relative errors times 100. -/
def calculate_mape (y_true y_pred : List ℚ) : ℚ :=
  let pairs := y_true.zip y_pred
  let nz := pairs.filter fun q => q.1 != 0
  if nz.length = 0 then 0
  else ((nz.map fun q => |(q.1 - q.2) / q.1|).sum / (nz.length : ℚ)) * 100

/-- Modelled from the spec wording of the MAPE contract: mean over the
points with nonzero actual of the absolute error normalized by the
magnitude of the actual, as a percentage, and 0 when no actual is
nonzero. Stated separately from calculate_mape so the two can be
compared. -/
def mapeSpec (y_true y_pred : List ℚ) : ℚ :=
  let pairs := y_true.zip y_pred
  let nz := pairs.filter fun q => q.1 != 0
  if nz.length = 0 then 0
  else ((nz.map fun q => |q.1 - q.2| / |q.1|).sum / (nz.length : ℚ)) * 100

/-- split_point of train_and_save_model: int(len(df) * 0.9), the floor of
nine tenths of the series length. -/
def split_point (n : Nat) : Nat := 9 * n / 10

/-- Chronological train/test split of train_and_save_model:
df.iloc[:split_point] and df.iloc[split_point:]. -/
def train_test_split (df : List α) : List α × List α :=
  (df.take (split_point df.length), df.drop (split_point df.length))

/-! ### Ingestion Loader: data_ingest.py

A chunk of the source file carries its column names and its rows; the
row payload is abstract. The destination table is Option (List rows):
none when no table of the given name exists in the store. -/

structure Chunk (α : Type) where
  columns : List String
  rows : List α
deriving DecidableEq, Repr

/-- The eight expected columns of ingest_data. -/
def expected_columns : List String :=
  ["pickup_datetime", "dropoff_datetime", "pickup_longitude",
   "pickup_latitude", "dropoff_longitude", "dropoff_latitude",
   "passenger_count", "trip_duration"]

/-- A chunk can be projected to the expected columns exactly when it has
all of them; otherwise the projection raises KeyError and the chunk is
skipped. -/
def hasExpectedColumns (c : Chunk α) : Bool :=
  expected_columns.all fun n => c.columns.contains n

/-- Chunk loop of ingest_data: chunk_num counts successfully written
chunks; the first written chunk replaces the table, later ones append
(to_sql with append creates the table when absent, hence getD). A chunk
without the expected columns is skipped and the loop continues. -/
def ingestLoop : List (Chunk α) → Option (List α) → Nat → Option (List α)
  | [], table, _ => table
  | c :: cs, table, chunkNum =>
    if hasExpectedColumns c then
      if chunkNum = 0 then ingestLoop cs (some c.rows) (chunkNum + 1)
      else ingestLoop cs (some (table.getD [] ++ c.rows)) (chunkNum + 1)
    else ingestLoop cs table chunkNum

/-- ingest_data of data_ingest.py, as a function from the chunks of the
source file and the prior table contents to the final table contents. -/
def ingest_data (chunks : List (Chunk α)) (table : Option (List α)) :
    Option (List α) :=
  ingestLoop chunks table 0

/-- Number of rows of a destination table (0 when the table is absent). -/
def tableRowCount (t : Option (List α)) : Nat := (t.getD []).length

/-- Observable state of the destination store: whether the parent
directory of the store exists, whether an engine connection to the store
has been made, and the table contents. -/
structure StoreState (α : Type) where
  dirExists : Bool
  engineCreated : Bool
  table : Option (List α)
deriving DecidableEq, Repr

/-- Entry point of data_ingest.py: the source file is checked for
existence first; when it is absent an error is logged and nothing else
runs, otherwise ingest_data creates the store directory if needed,
connects, and writes the table. Returns the logged error, if any, and
the resulting store state. -/
def ingest_main (csv : Option (List (Chunk α))) (st : StoreState α) :
    Option String × StoreState α :=
  match csv with
  | some chunks =>
    (none,
     { dirExists := true
       engineCreated := true
       table := ingest_data chunks st.table })
  | none => (some "Error: Dataset not found", st)

/-! ### Lemmas on the ingestion loop -/

/-- Once at least one chunk has been written (chunkNum positive), the loop
appends the rows of every remaining valid chunk to the table. -/
lemma ingestLoop_pos {α : Type} (cs : List (Chunk α)) (t : List α) (n : Nat)
    (hn : n ≠ 0) :
    ingestLoop cs (some t) n =
      some (t ++ ((cs.filter hasExpectedColumns).map Chunk.rows).flatten) := by
  induction cs generalizing t n with
  | nil => simp [ingestLoop]
  | cons c cs ih =>
    by_cases hc : hasExpectedColumns c
    · rw [ingestLoop, if_pos hc, if_neg hn]
      rw [show (some t).getD [] = t from rfl, ih (t ++ c.rows) (n + 1) (Nat.succ_ne_zero n)]
      simp [List.filter_cons_of_pos hc, List.append_assoc]
    · rw [ingestLoop, if_neg hc, ih t n hn]
      simp [List.filter_cons_of_neg hc]

/-- When some chunk is valid, the final table is exactly the concatenation
of the rows of the valid chunks, whatever the table held before. -/
lemma ingest_data_eq_join {α : Type} (cs : List (Chunk α)) (t : Option (List α))
    (h : cs.filter hasExpectedColumns ≠ []) :
    ingest_data cs t =
      some (((cs.filter hasExpectedColumns).map Chunk.rows).flatten) := by
  induction cs generalizing t with
  | nil => simp at h
  | cons c cs ih =>
    by_cases hc : hasExpectedColumns c
    · rw [ingest_data, ingestLoop, if_pos hc, if_pos rfl]
      rw [ingestLoop_pos cs c.rows 1 one_ne_zero]
      simp [List.filter_cons_of_pos hc]
    · rw [ingest_data, ingestLoop, if_neg hc, List.filter_cons_of_neg hc]
      rw [List.filter_cons_of_neg hc] at h
      exact ih t h

/-- When no chunk is valid, the loop never writes and the table is left
exactly as it was. -/
lemma ingest_data_no_valid {α : Type} (cs : List (Chunk α)) (t : Option (List α))
    (h : cs.filter hasExpectedColumns = []) :
    ingest_data cs t = t := by
  induction cs generalizing t with
  | nil => rfl
  | cons c cs ih =>
    rw [List.filter_cons] at h
    by_cases hc : hasExpectedColumns c
    · simp [hc] at h
    · rw [ingest_data, ingestLoop, if_neg hc]
      exact ih t (by simpa [hc] using h)

/-- Skipping a malformed chunk is transparent: the loop behaves as if the
chunk were not in the stream at all. -/
lemma ingestLoop_skip {α : Type} (pre post : List (Chunk α)) (bad : Chunk α)
    (hbad : hasExpectedColumns bad = false) (t : Option (List α)) (n : Nat) :
    ingestLoop (pre ++ bad :: post) t n = ingestLoop (pre ++ post) t n := by
  induction pre generalizing t n with
  | nil => simp [ingestLoop, hbad]
  | cons c pre ih =>
    by_cases hc : hasExpectedColumns c <;> by_cases hn : n = 0 <;>
      simp [ingestLoop, hc, hn, ih]

/-- C4: a chunk missing one or more of the eight expected columns is
skipped entirely, processing continues with the next chunk, and the final
table holds exactly the union (concatenation) of the rows of the valid
chunks; removing a malformed chunk from the stream does not change the
outcome, so a single malformed chunk never aborts the run. -/
theorem ingest_skips_malformed_chunks {α : Type}
    (chunks pre post : List (Chunk α)) (bad : Chunk α) (t : Option (List α))
    (hval : chunks.filter hasExpectedColumns ≠ [])
    (hbad : hasExpectedColumns bad = false) :
    ingest_data chunks t =
      some (((chunks.filter hasExpectedColumns).map Chunk.rows).flatten) ∧
    ingest_data (pre ++ bad :: post) t = ingest_data (pre ++ post) t :=
  ⟨ingest_data_eq_join chunks t hval,
   ingestLoop_skip pre post bad hbad t 0⟩

/-- Witness for C4 at a concrete stream: a valid chunk, a chunk missing
passenger_count, then another valid chunk. -/
theorem ingest_skips_malformed_chunks_witness :
    ((([⟨expected_columns, [1, 2]⟩,
        ⟨["pickup_datetime"], [9]⟩,
        ⟨expected_columns, [3]⟩] : List (Chunk Nat)).filter hasExpectedColumns ≠ []) ∧
     hasExpectedColumns (⟨["pickup_datetime"], [9]⟩ : Chunk Nat) = false) ∧
    (ingest_data
        ([⟨expected_columns, [1, 2]⟩,
          ⟨["pickup_datetime"], [9]⟩,
          ⟨expected_columns, [3]⟩] : List (Chunk Nat)) none =
      some ((([⟨expected_columns, [1, 2]⟩,
          ⟨["pickup_datetime"], [9]⟩,
          ⟨expected_columns, [3]⟩] : List (Chunk Nat)).filter
            hasExpectedColumns).map Chunk.rows).flatten ∧
     ingest_data
        (([⟨expected_columns, [1, 2]⟩] : List (Chunk Nat)) ++
          ⟨["pickup_datetime"], [9]⟩ :: [⟨expected_columns, [3]⟩]) none =
       ingest_data
        (([⟨expected_columns, [1, 2]⟩] : List (Chunk Nat)) ++
          [⟨expected_columns, [3]⟩]) none) :=
  ⟨⟨by decide, by decide⟩,
   ingest_skips_malformed_chunks _ _ _ _ _ (by decide) (by decide)⟩

/-- C7: running ingestion twice with the same source, store, and table
name leaves the same table as running it once, because the first written
chunk of the second run replaces the table; in particular the row counts
agree (the source claim). -/
theorem ingest_idempotent {α : Type} (chunks : List (Chunk α))
    (t : Option (List α)) :
    ingest_data chunks (ingest_data chunks t) = ingest_data chunks t ∧
    tableRowCount (ingest_data chunks (ingest_data chunks t)) =
      tableRowCount (ingest_data chunks t) := by
  by_cases h : chunks.filter hasExpectedColumns = []
  · rw [ingest_data_no_valid chunks t h, ingest_data_no_valid chunks t h]
    exact ⟨rfl, rfl⟩
  · rw [ingest_data_eq_join chunks t h, ingest_data_eq_join chunks (some _) h]
    exact ⟨rfl, rfl⟩

/-- C9: when the source file is absent, the entry point reports the
missing dataset and returns with the store untouched: no directory
created, no engine connection made, no table created or modified. -/
theorem ingest_missing_source_no_store_access {α : Type} (st : StoreState α) :
    ingest_main (none : Option (List (Chunk α))) st =
      (some "Error: Dataset not found", st) ∧
    (ingest_main (none : Option (List (Chunk α))) st).2.dirExists = st.dirExists ∧
    (ingest_main (none : Option (List (Chunk α))) st).2.engineCreated = st.engineCreated ∧
    (ingest_main (none : Option (List (Chunk α))) st).2.table = st.table :=
  ⟨rfl, rfl, rfl, rfl⟩

/-- C6: the evaluation split is chronological: the training set is the
first floor(0.9 n) points of the series in order, the held-out set is the
remaining points in order, and together they partition the series. -/
theorem train_test_split_chronological {α : Type} (df : List α) :
    (train_test_split df).1 = df.take (9 * df.length / 10) ∧
    (train_test_split df).2 = df.drop (9 * df.length / 10) ∧
    (train_test_split df).1 ++ (train_test_split df).2 = df ∧
    (train_test_split df).1.length = 9 * df.length / 10 ∧
    (train_test_split df).2.length = df.length - 9 * df.length / 10 := by
  have hle : 9 * df.length / 10 ≤ df.length :=
    Nat.div_le_of_le_mul (by omega)
  refine ⟨rfl, rfl, List.take_append_drop _ _, ?_, ?_⟩
  · simp [train_test_split, split_point, List.length_take, Nat.min_eq_left hle]
  · simp [train_test_split, split_point, List.length_drop]

/-! ### MAPE -/

/-- C3: calculate_mape returns exactly 0 when every actual value is 0,
whatever the predictions, and in general equals the spec formula: the
mean over the points with nonzero actual of the absolute error normalized
by the actual, times 100. -/
theorem calculate_mape_spec (y_true y_pred : List ℚ)
    (_h : y_true.length = y_pred.length) :
    ((∀ a ∈ y_true, a = 0) → calculate_mape y_true y_pred = 0) ∧
    calculate_mape y_true y_pred = mapeSpec y_true y_pred := by
  constructor
  · intro hz
    have hnil : (y_true.zip y_pred).filter (fun q => q.1 != 0) = [] := by
      rw [List.filter_eq_nil_iff]
      rintro ⟨a, b⟩ hq
      have ha : a ∈ y_true := (List.of_mem_zip hq).1
      simp [hz a ha]
    simp [calculate_mape, hnil]
  · simp only [calculate_mape, mapeSpec, abs_div]

/-- Witness for C3 at concrete vectors: all-zero actuals give 0, and the
code agrees with the spec formula there. -/
theorem calculate_mape_spec_witness :
    ([(0 : ℚ), 0].length = [(5 : ℚ), 7].length) ∧
    (((∀ a ∈ [(0 : ℚ), 0], a = 0) → calculate_mape [(0 : ℚ), 0] [(5 : ℚ), 7] = 0) ∧
     calculate_mape [(0 : ℚ), 0] [(5 : ℚ), 7] = mapeSpec [(0 : ℚ), 0] [(5 : ℚ), 7]) :=
  ⟨rfl, calculate_mape_spec [(0 : ℚ), 0] [(5 : ℚ), 7] rfl⟩

/-! ### Order independence of the cleaner filters -/

/-- Applying boolean masks one after the other is the same as one mask
requiring all of them. -/
lemma applyFilters_eq_filter_all (ps : List (RawTripRecord → Bool))
    (rows : List RawTripRecord) :
    applyFilters rows ps = rows.filter fun r => ps.all fun p => p r := by
  induction ps generalizing rows with
  | nil => simp [applyFilters]
  | cons p ps ih =>
    show applyFilters (rows.filter p) ps = _
    rw [ih, List.filter_filter]
    congr 1
    funext r
    simp [Bool.and_comm]

/-- List.all is invariant under permutation of the list. -/
lemma perm_all {β : Type} {l₁ l₂ : List β} (h : l₁.Perm l₂) (f : β → Bool) :
    l₁.all f = l₂.all f := by
  induction h with
  | nil => rfl
  | cons x _ ih => simp [List.all_cons, ih]
  | swap x y l =>
    simp only [List.all_cons]
    rw [← Bool.and_assoc, Bool.and_comm (f y) (f x), Bool.and_assoc]
  | trans _ _ ih₁ ih₂ => exact ih₁.trans ih₂

/-- C8: the four cleaner filters are conjunctive, so applying them in any
permutation of the implemented order yields exactly the surviving records
of clean_data. -/
theorem cleaner_filters_order_independent (ps : List (RawTripRecord → Bool))
    (hp : ps.Perm cleanerPredicates) (rows : List RawTripRecord) :
    applyFilters rows ps = cleanFilter rows := by
  have hc : applyFilters rows cleanerPredicates = cleanFilter rows := rfl
  rw [applyFilters_eq_filter_all, ← hc, applyFilters_eq_filter_all]
  congr 1
  funext r
  exact perm_all hp fun p => p r

/-- Witness for C8: the reversed filter order on a concrete two-row table. -/
theorem cleaner_filters_order_independent_witness :
    (cleanerPredicates.reverse.Perm cleanerPredicates) ∧
    applyFilters [latBoundaryPass, latBoundaryFail] cleanerPredicates.reverse =
      cleanFilter [latBoundaryPass, latBoundaryFail] :=
  ⟨List.reverse_perm cleanerPredicates,
   cleaner_filters_order_independent _ (List.reverse_perm cleanerPredicates) _⟩

/-! ### Cleaner invariants -/

/-- C2: every record surviving the cleaner filters has no null field,
positive passenger count, all four coordinates inside the bounding box
(longitude in [-74.3, -73.7], latitude in [40.5, 41.0], bounds included),
and trip duration strictly between 60 and 5400 seconds; moreover the
boundary record with latitude exactly 40.5 survives and the record with
latitude 40.49999 does not. -/
theorem clean_data_invariants (rows : List RawTripRecord) (r : RawTripRecord)
    (hr : r ∈ cleanFilter rows) :
    notnullP r = true ∧
    (∀ c, r.passenger_count = some c → 0 < c) ∧
    (∀ x, r.pickup_latitude = some x → NYC_min_lat ≤ x ∧ x ≤ NYC_max_lat) ∧
    (∀ x, r.pickup_longitude = some x → NYC_min_lon ≤ x ∧ x ≤ NYC_max_lon) ∧
    (∀ x, r.dropoff_latitude = some x → NYC_min_lat ≤ x ∧ x ≤ NYC_max_lat) ∧
    (∀ x, r.dropoff_longitude = some x → NYC_min_lon ≤ x ∧ x ≤ NYC_max_lon) ∧
    (∀ d, r.trip_duration = some d → 60 < d ∧ d < 5400) ∧
    latBoundaryPass ∈ cleanFilter [latBoundaryPass] ∧
    latBoundaryFail ∉ cleanFilter [latBoundaryFail] := by
  obtain ⟨hr3, hdur⟩ := List.mem_filter.mp hr
  obtain ⟨hr2, hgeo⟩ := List.mem_filter.mp hr3
  obtain ⟨hr1, hpass⟩ := List.mem_filter.mp hr2
  obtain ⟨_, hnull⟩ := List.mem_filter.mp hr1
  simp only [geoP, Bool.and_eq_true] at hgeo
  obtain ⟨⟨⟨g1, g2⟩, g3⟩, g4⟩ := hgeo
  refine ⟨hnull, ?_, ?_, ?_, ?_, ?_, ?_, latBoundaryPass_mem, latBoundaryFail_not_mem⟩
  · intro c hc
    rw [passengerP, hc] at hpass
    exact of_decide_eq_true hpass
  · intro x hx
    rw [hx, betweenQ] at g1
    exact of_decide_eq_true g1
  · intro x hx
    rw [hx, betweenQ] at g2
    exact of_decide_eq_true g2
  · intro x hx
    rw [hx, betweenQ] at g3
    exact of_decide_eq_true g3
  · intro x hx
    rw [hx, betweenQ] at g4
    exact of_decide_eq_true g4
  · intro d hd
    rw [durP, hd] at hdur
    exact of_decide_eq_true hdur

/-- Witness for C2 at the boundary record with latitude exactly 40.5. -/
theorem clean_data_invariants_witness :
    latBoundaryPass ∈ cleanFilter [latBoundaryPass] ∧
    (notnullP latBoundaryPass = true ∧
     (∀ c, latBoundaryPass.passenger_count = some c → 0 < c) ∧
     (∀ x, latBoundaryPass.pickup_latitude = some x →
        NYC_min_lat ≤ x ∧ x ≤ NYC_max_lat) ∧
     (∀ x, latBoundaryPass.pickup_longitude = some x →
        NYC_min_lon ≤ x ∧ x ≤ NYC_max_lon) ∧
     (∀ x, latBoundaryPass.dropoff_latitude = some x →
        NYC_min_lat ≤ x ∧ x ≤ NYC_max_lat) ∧
     (∀ x, latBoundaryPass.dropoff_longitude = some x →
        NYC_min_lon ≤ x ∧ x ≤ NYC_max_lon) ∧
     (∀ d, latBoundaryPass.trip_duration = some d → 60 < d ∧ d < 5400) ∧
     latBoundaryPass ∈ cleanFilter [latBoundaryPass] ∧
     latBoundaryFail ∉ cleanFilter [latBoundaryFail]) :=
  ⟨latBoundaryPass_mem,
   clean_data_invariants [latBoundaryPass] latBoundaryPass latBoundaryPass_mem⟩

/-! ### Derived trip_duration_minutes column -/

/-- C5: every record of the cleaned output carries
trip_duration_minutes = round2(trip_duration / 60), and on the boundary
durations 61 s and 5399 s the rounding gives 1.02 and 89.98. -/
theorem trip_duration_minutes_round2 (rows : List RawTripRecord)
    (r : CleanedTripRecord) (hr : r ∈ clean_data rows) :
    r.trip_duration_minutes = round2 ((r.trip_duration : ℚ) / 60) ∧
    round2 (61 / 60) = 1.02 ∧ round2 (5399 / 60) = 89.98 := by
  refine ⟨?_, by norm_num [round2, round_eq], by norm_num [round2, round_eq]⟩
  obtain ⟨s, _, rfl⟩ := List.mem_map.mp hr
  rfl

/-- Witness for C5 at the concrete surviving boundary record. -/
theorem trip_duration_minutes_round2_witness :
    addMinutes latBoundaryPass ∈ clean_data [latBoundaryPass] ∧
    ((addMinutes latBoundaryPass).trip_duration_minutes =
       round2 (((addMinutes latBoundaryPass).trip_duration : ℚ) / 60) ∧
     round2 (61 / 60) = 1.02 ∧ round2 (5399 / 60) = 89.98) :=
  ⟨List.mem_map_of_mem addMinutes latBoundaryPass_mem,
   trip_duration_minutes_round2 [latBoundaryPass] (addMinutes latBoundaryPass)
     (List.mem_map_of_mem addMinutes latBoundaryPass_mem)⟩

/-! ### Aggregator lemmas: extrema of the observed hours -/

lemma foldl_min_le_init (l : List Nat) (a : Nat) : l.foldl min a ≤ a := by
  induction l generalizing a with
  | nil => exact Nat.le_refl a
  | cons b l ih => exact Nat.le_trans (ih (min a b)) (Nat.min_le_left a b)

lemma foldl_min_le_mem (l : List Nat) (a : Nat) {b : Nat} (hb : b ∈ l) :
    l.foldl min a ≤ b := by
  induction l generalizing a with
  | nil => exact absurd hb (List.not_mem_nil b)
  | cons c l ih =>
    rcases List.mem_cons.mp hb with hbc | hbl
    · subst hbc
      exact Nat.le_trans (foldl_min_le_init l (min a b)) (Nat.min_le_right a b)
    · exact ih (min a c) hbl

lemma foldl_min_eq_init_or_mem (l : List Nat) (a : Nat) :
    l.foldl min a = a ∨ l.foldl min a ∈ l := by
  induction l generalizing a with
  | nil => exact Or.inl rfl
  | cons b l ih =>
    rcases ih (min a b) with h | h
    · rcases min_choice a b with hm | hm
      · exact Or.inl (by rw [List.foldl_cons, h, hm])
      · exact Or.inr (by rw [List.foldl_cons, h, hm]; exact List.mem_cons_self b l)
    · exact Or.inr (List.mem_cons_of_mem b h)

lemma foldl_max_init_le (l : List Nat) (a : Nat) : a ≤ l.foldl max a := by
  induction l generalizing a with
  | nil => exact Nat.le_refl a
  | cons b l ih => exact Nat.le_trans (Nat.le_max_left a b) (ih (max a b))

lemma foldl_max_mem_le (l : List Nat) (a : Nat) {b : Nat} (hb : b ∈ l) :
    b ≤ l.foldl max a := by
  induction l generalizing a with
  | nil => exact absurd hb (List.not_mem_nil b)
  | cons c l ih =>
    rcases List.mem_cons.mp hb with hbc | hbl
    · subst hbc
      exact Nat.le_trans (Nat.le_max_right a b) (foldl_max_init_le l (max a b))
    · exact ih (max a c) hbl

lemma foldl_max_eq_init_or_mem (l : List Nat) (a : Nat) :
    l.foldl max a = a ∨ l.foldl max a ∈ l := by
  induction l generalizing a with
  | nil => exact Or.inl rfl
  | cons b l ih =>
    rcases ih (max a b) with h | h
    · rcases max_choice a b with hm | hm
      · exact Or.inl (by rw [List.foldl_cons, h, hm])
      · exact Or.inr (by rw [List.foldl_cons, h, hm]; exact List.mem_cons_self b l)
    · exact Or.inr (List.mem_cons_of_mem b h)

/-- loHour is a lower bound on the floored hour of every pickup. -/
lemma loHour_le (ps : List Nat) {p : Nat} (hp : p ∈ ps) :
    loHour ps ≤ floorHour p := by
  match ps with
  | [] => exact absurd hp (List.not_mem_nil p)
  | t :: ts =>
    rcases List.mem_cons.mp hp with h | h
    · subst h
      exact foldl_min_le_init _ _
    · exact foldl_min_le_mem _ _ (List.mem_map_of_mem floorHour h)

/-- hiHour is an upper bound on the floored hour of every pickup. -/
lemma le_hiHour (ps : List Nat) {p : Nat} (hp : p ∈ ps) :
    floorHour p ≤ hiHour ps := by
  match ps with
  | [] => exact absurd hp (List.not_mem_nil p)
  | t :: ts =>
    rcases List.mem_cons.mp hp with h | h
    · subst h
      exact foldl_max_init_le _ _
    · exact foldl_max_mem_le _ _ (List.mem_map_of_mem floorHour h)

/-- loHour is attained by some pickup of a nonempty list. -/
lemma loHour_attained (ps : List Nat) (h : ps ≠ []) :
    ∃ p ∈ ps, floorHour p = loHour ps := by
  match ps with
  | [] => exact absurd rfl h
  | t :: ts =>
    rcases foldl_min_eq_init_or_mem (ts.map floorHour) (floorHour t) with hm | hm
    · exact ⟨t, List.mem_cons_self t ts, hm.symm⟩
    · obtain ⟨p, hp, hfp⟩ := List.mem_map.mp hm
      exact ⟨p, List.mem_cons_of_mem t hp, hfp⟩

/-- hiHour is attained by some pickup of a nonempty list. -/
lemma hiHour_attained (ps : List Nat) (h : ps ≠ []) :
    ∃ p ∈ ps, floorHour p = hiHour ps := by
  match ps with
  | [] => exact absurd rfl h
  | t :: ts =>
    rcases foldl_max_eq_init_or_mem (ts.map floorHour) (floorHour t) with hm | hm
    · exact ⟨t, List.mem_cons_self t ts, hm.symm⟩
    · obtain ⟨p, hp, hfp⟩ := List.mem_map.mp hm
      exact ⟨p, List.mem_cons_of_mem t hp, hfp⟩

/-- C1: for a nonempty pickup list the hourly series has exactly
hiHour - loHour + 1 rows, loHour and hiHour are the floored minimum and
maximum pickup hours, and the i-th row is the hour loHour + i (as an
hour-aligned timestamp) paired with the number of pickups falling in that
hour, which is 0 for an hour with no trips — so the series is contiguous
and gap-free between the extremes, one row per hour. -/
theorem hourly_demand_gap_free (ps : List Nat) (hne : ps ≠ []) :
    (create_hourly_demand ps).length = hiHour ps - loHour ps + 1 ∧
    (∀ p ∈ ps, loHour ps ≤ floorHour p ∧ floorHour p ≤ hiHour ps) ∧
    (∃ p ∈ ps, floorHour p = loHour ps) ∧
    (∃ p ∈ ps, floorHour p = hiHour ps) ∧
    (∀ i, ∀ h : i < (create_hourly_demand ps).length,
      (create_hourly_demand ps).get ⟨i, h⟩ =
        (3600 * (loHour ps + i),
         ps.countP fun u => floorHour u == loHour ps + i)) := by
  match ps with
  | [] => exact absurd rfl hne
  | t :: ts =>
    refine ⟨by simp [create_hourly_demand], ?_, loHour_attained _ hne,
      hiHour_attained _ hne, ?_⟩
    · exact fun p hp => ⟨loHour_le _ hp, le_hiHour _ hp⟩
    · intro i h
      rw [List.get_eq_getElem]
      simp only [create_hourly_demand]
      rw [List.getElem_map, List.getElem_range]

/-- Witness for C1: two trips exactly one week apart. -/
theorem hourly_demand_gap_free_witness :
    (([0, 604800] : List Nat) ≠ []) ∧
    ((create_hourly_demand [0, 604800]).length =
       hiHour [0, 604800] - loHour [0, 604800] + 1 ∧
     (∀ p ∈ ([0, 604800] : List Nat),
        loHour [0, 604800] ≤ floorHour p ∧ floorHour p ≤ hiHour [0, 604800]) ∧
     (∃ p ∈ ([0, 604800] : List Nat), floorHour p = loHour [0, 604800]) ∧
     (∃ p ∈ ([0, 604800] : List Nat), floorHour p = hiHour [0, 604800]) ∧
     (∀ i, ∀ h : i < (create_hourly_demand [0, 604800]).length,
        (create_hourly_demand [0, 604800]).get ⟨i, h⟩ =
          (3600 * (loHour [0, 604800] + i),
           ([0, 604800] : List Nat).countP
             fun u => floorHour u == loHour [0, 604800] + i))) :=
  ⟨by decide, hourly_demand_gap_free [0, 604800] (by decide)⟩

/-! ### Conservation of the total count -/

lemma sum_map_add {β : Type} (l : List β) (f g : β → Nat) :
    (l.map fun x => f x + g x).sum = (l.map f).sum + (l.map g).sum := by
  induction l with
  | nil => rfl
  | cons a l ih =>
    simp only [List.map_cons, List.sum_cons, ih]
    omega

lemma sum_map_const_zero {β : Type} (l : List β) :
    (l.map fun _ => (0 : Nat)).sum = 0 := by
  induction l with
  | nil => rfl
  | cons a l ih => simp only [List.map_cons, List.sum_cons, ih]

lemma sum_indicator_range_zero (n lo v : Nat)
    (h : ∀ i, i < n → (v == lo + i) = false) :
    ((List.range n).map fun i => if v == lo + i then 1 else 0).sum = 0 := by
  induction n with
  | zero => rfl
  | succ n ih =>
    rw [List.range_succ, List.map_append, List.sum_append]
    rw [ih fun i hi => h i (Nat.lt_succ_of_lt hi)]
    have hn : ¬v = lo + n := beq_eq_false_iff_ne.mp (h n (Nat.lt_succ_self n))
    simp [hn]

lemma sum_indicator_range (n lo v : Nat) (h1 : lo ≤ v) :
    v < lo + n →
    ((List.range n).map fun i => if v == lo + i then 1 else 0).sum = 1 := by
  induction n with
  | zero => intro h2; omega
  | succ n ih =>
    intro h2
    rw [List.range_succ, List.map_append, List.sum_append]
    by_cases hv : v = lo + n
    · rw [sum_indicator_range_zero n lo v
        fun i hi => beq_eq_false_iff_ne.mpr (by omega)]
      simp [hv]
    · rw [ih (by omega)]
      simp [hv]

/-- Summing the per-hour counts over a range of hours covering every
element counts every element exactly once. -/
lemma sum_countP_range (l : List Nat) (f : Nat → Nat) (lo n : Nat)
    (hl : ∀ p ∈ l, lo ≤ f p ∧ f p < lo + n) :
    ((List.range n).map fun i => l.countP fun u => f u == lo + i).sum =
      l.length := by
  induction l with
  | nil =>
    simp only [List.countP_nil, List.length_nil]
    exact sum_map_const_zero _
  | cons a l ih =>
    simp only [List.countP_cons, List.length_cons]
    rw [sum_map_add]
    rw [ih fun p hp => hl p (List.mem_cons_of_mem a hp)]
    have ha := hl a (List.mem_cons_self a l)
    rw [sum_indicator_range n lo (f a) ha.1 ha.2]

/-- C10: the aggregator preserves the total count: on a nonempty cleaned
input the counts of the hourly demand series sum to the number of input
records, as gap-filled hours contribute 0 and every record falls into
exactly one hour bucket. -/
theorem hourly_demand_preserves_total (ps : List Nat) (hne : ps ≠ []) :
    ((create_hourly_demand ps).map Prod.snd).sum = ps.length := by
  match ps with
  | [] => exact absurd rfl hne
  | t :: ts =>
    rw [create_hourly_demand, List.map_map]
    have hcomp :
        (Prod.snd ∘ fun i =>
          ((3600 * (loHour (t :: ts) + i),
            (t :: ts).countP fun u => floorHour u == loHour (t :: ts) + i) :
              Nat × Nat)) =
        fun i => (t :: ts).countP fun u => floorHour u == loHour (t :: ts) + i :=
      rfl
    rw [hcomp]
    obtain ⟨p0, hp0, hfp0⟩ := hiHour_attained (t :: ts) hne
    have hlohi : loHour (t :: ts) ≤ hiHour (t :: ts) := hfp0 ▸ loHour_le _ hp0
    exact sum_countP_range (t :: ts) floorHour (loHour (t :: ts))
      (hiHour (t :: ts) - loHour (t :: ts) + 1)
      fun p hp => ⟨loHour_le _ hp, by have := le_hiHour _ hp; omega⟩

/-- Witness for C10: three trips in two distinct hours with a zero-count
hour between none of them and the count total equal to 3. -/
theorem hourly_demand_preserves_total_witness :
    (([0, 7200, 7205] : List Nat) ≠ []) ∧
    ((create_hourly_demand [0, 7200, 7205]).map Prod.snd).sum =
      ([0, 7200, 7205] : List Nat).length :=
  ⟨by decide, hourly_demand_preserves_total [0, 7200, 7205] (by decide)⟩

end UrbanMobility
